import Mathlib

/-!
Verification of the gammarf node runtime kernel against its specification.

The Python sources are shallowly embedded: Python dicts (and `OrderedDict`)
become association lists with update-or-append assignment, Python's
`None`-or-value fields become `Option`, code that can raise (`KeyError`,
`ValueError`) returns `Except PyErr`, and `time.strftime` / `uuid4` /
`md5` become explicit parameters.
-/

namespace Gammarf

/-- Python exception kinds raised by the embedded code. -/
inductive PyErr where
  | keyError
  | valueError
deriving DecidableEq, Repr

/-- `d[k] = v` on a Python (ordered) dict: update the binding in place if
the key is present (preserving its position), otherwise append. -/
def updSet {κ α : Type} [BEq κ] : List (κ × α) → κ → α → List (κ × α)
  | [], k, v => [(k, v)]
  | p :: rest, k, v =>
      if p.1 == k then (k, v) :: rest else p :: updSet rest k v

/-- `d.get(k)` on a Python dict. -/
def updGet {κ α : Type} [BEq κ] : List (κ × α) → κ → Option α
  | [], _ => none
  | p :: rest, k => if p.1 == k then some p.2 else updGet rest k

/-- `d.pop(k, None)`: drop the binding of `k`, if any. -/
def updPop {κ α : Type} [BEq κ] (d : List (κ × α)) (k : κ) :
    List (κ × α) :=
  d.filter (fun p => !(p.1 == k))

theorem updGet_updSet_self {κ α : Type} [BEq κ] [LawfulBEq κ]
    (d : List (κ × α)) (k : κ) (v : α) : updGet (updSet d k v) k = some v := by
  induction d with
  | nil => simp [updSet, updGet]
  | cons p rest ih =>
      by_cases hp : p.1 = k
      · simp [updSet, updGet, hp]
      · simp [updSet, updGet, hp, ih]

theorem updGet_updSet_ne {κ α : Type} [BEq κ] [LawfulBEq κ]
    (d : List (κ × α)) (k k' : κ) (v : α) (h : k ≠ k') :
    updGet (updSet d k v) k' = updGet d k' := by
  induction d with
  | nil => simp [updSet, updGet, h, Ne.symm h]
  | cons p rest ih =>
      by_cases hp : p.1 = k
      · have hp' : p.1 ≠ k' := fun hk => h (hp ▸ hk ▸ rfl)
        simp [updSet, updGet, hp, hp', h, Ne.symm h]
      · by_cases hp' : p.1 = k'
        · rw [updSet, if_neg (by simp [hp])]
          simp [updGet, hp']
        · simp [updSet, updGet, hp, hp', ih]

/-! ## Device registry (`gammarf_devices.py`)

Keys of `self.devs` are Python ints (physical and pseudo devices) or
single-lowercase-letter strings (virtual devices). -/

/-- A key of the `devs` ordered dict. -/
inductive DevId where
  | num (n : Int)
  | letter (c : Char)
deriving DecidableEq, Repr

/-- The `job` field of a device: `None`, a `(module, cmdline, started)`
tuple, or a bare sentinel string (`"Virtual Provider"`, `"*** Reserved"`,
`"*** Out of commission"`). -/
inductive Job where
  | task (module : String) (cmdline : Option String) (started : String)
  | text (s : String)
deriving DecidableEq, Repr

/-- Python truthiness of a job value: tuples are truthy, strings are
truthy iff non-empty. -/
def Job.truthy : Job → Bool
  | .task _ _ _ => true
  | .text s => !s.isEmpty

/-- Truthiness of the whole `job` field (`None` is falsy). -/
def jobTruthy : Option Job → Bool
  | none => false
  | some j => j.truthy

/-- The fields of `HackRfDev` / `RtlSdrDev` / `PseudoDev` / `VirtualDev`
that the kernel reads.  `devtype` is the Python type-tag string; `gain`
is the rtlsdr gain (other per-kind numeric fields are analogous and
unused by the claims under verification). -/
structure Device where
  devtype : String
  devid : Option DevId := none
  name : Option String := none
  job : Option Job := none
  serial : Option String := none
  usable : Bool := true
  reserved : Bool := false
  gain : Int := 23
deriving DecidableEq, Repr

/-- `self.devs`, an `OrderedDict` keyed by `DevId`. -/
abbrev Registry := List (DevId × Device)

/-- Rendering a dev id the way `"{}".format(devid)` does. -/
def DevId.str : DevId → String
  | .num n => toString n
  | .letter c => String.singleton c

/-- `HACKRF_DEVNUM = 0`. -/
def HACKRF_DEVNUM : DevId := .num 0

/-- `isdev`: membership test on `self.devs`. -/
def isdev (reg : Registry) (devid : DevId) : Bool :=
  (updGet reg devid).isSome

/-- `ishackrf`: true iff a hackrf is present and `devid` is its devnum. -/
def ishackrf (have_hackrf : Bool) (devid : DevId) : Bool :=
  have_hackrf && devid == HACKRF_DEVNUM

/-- `occupied`.  In the source the guard reads
`if self.hackrf and self.ishackrf(devid)`; `self.hackrf` is the *bound
method* (not a call), hence always truthy, so the guard reduces to
`ishackrf(devid)`. -/
def occupied (have_hackrf : Bool) (reg : Registry) (devid : DevId) : Bool :=
  if ishackrf have_hackrf devid then false
  else if !isdev reg devid then false
  else match updGet reg devid with
    | some dev => jobTruthy dev.job
    | none => false

/-- `reserved` (the query).  The source guards with
`if self.have_hackrf: if self.ishackrf(devid): return False`, which is
`ishackrf have_hackrf devid` since `ishackrf` already requires the
hackrf to be present. -/
def reservedQ (have_hackrf : Bool) (reg : Registry) (devid : DevId) : Bool :=
  if ishackrf have_hackrf devid then false
  else if !isdev reg devid then false
  else match updGet reg devid with
    | some dev => dev.reserved
    | none => false

/-- `reserve`: set the reservation flag and the sentinel job text (no-op
on unknown ids thanks to the `isdev` guard). -/
def reserve (reg : Registry) (devid : DevId) : Registry :=
  match updGet reg devid with
  | none => reg
  | some dev =>
      updSet reg devid
        { dev with reserved := true, job := some (.text "*** Reserved") }

/-- `unreserve`: clear the flag and the job.  `self.devs[devid]` raises
`KeyError` when the id is absent. -/
def unreserve (reg : Registry) (devid : DevId) : Except PyErr Registry :=
  match updGet reg devid with
  | none => .error .keyError
  | some dev =>
      .ok (updSet reg devid { dev with reserved := false, job := none })

/-- `freedev`: virtual slots are removed outright, other devices get
their job nulled.  `self.devs[devid]` raises `KeyError` when absent. -/
def freedev (reg : Registry) (devid : DevId) : Except PyErr Registry :=
  match updGet reg devid with
  | none => .error .keyError
  | some dev =>
      .ok (if dev.devtype == "virtual" then updPop reg devid
           else updSet reg devid { dev with job := none })

/-- `get_devtype`: `int(devid)` failing with `ValueError` short-circuits
to `'virtual'`; integer ids are looked up (raising `KeyError` when
absent). -/
def get_devtype (reg : Registry) (devid : DevId) : Except PyErr String :=
  match devid with
  | .letter _ => .ok "virtual"
  | .num _ =>
      match updGet reg devid with
      | none => .error .keyError
      | some dev => .ok dev.devtype

/-- `get_rtlsdr_gain` (representative per-kind getter): raises `KeyError`
on absent ids, returns `None` on non-rtlsdr kinds. -/
def get_rtlsdr_gain (reg : Registry) (devid : DevId) :
    Except PyErr (Option Int) :=
  match updGet reg devid with
  | none => .error .keyError
  | some dev => .ok (if dev.devtype == "rtlsdr" then some dev.gain else none)

/-- `string.ascii_lowercase` as a list of candidate virtual ids. -/
def asciiLowercase : List Char :=
  (List.range 26).map (fun i => Char.ofNat (97 + i))

/-- `next_virtualdev`: first lowercase letter not present as a key. -/
def next_virtualdev (reg : Registry) : Option Char :=
  asciiLowercase.find? (fun c => !isdev reg (.letter c))

/-- `occupy`.  `int(devid)` deciding virtual-ness becomes the match on
the `DevId` constructor; `now` stands for `time.strftime("%c")`. -/
def occupy (reg : Registry) (devid : DevId) (module : String)
    (cmdline : Option String) (pseudo : Bool) (now : String) :
    Except PyErr (Option Bool × Registry) :=
  match devid with
  | .letter _ =>
      let dev : Device :=
        { devtype := "virtual",
          name := some (devid.str ++ " Virtual"),
          job := some (.task module cmdline now) }
      .ok (some true, updSet reg devid dev)
  | .num _ =>
      if pseudo then
        let dev : Device :=
          { devtype := "pseudo",
            devid := some devid,
            name := some (devid.str ++ " Pseudo device"),
            job := some (.task module cmdline now) }
        .ok (some true, updSet reg devid dev)
      else
        match updGet reg devid with
        | none => .error .keyError
        | some dev =>
            if jobTruthy dev.job || !dev.usable then
              .ok (none, reg)
            else
              .ok (some true,
                updSet reg devid
                  { dev with job := some (.task module cmdline now) })

/-- `running`: jobs of every device whose `job` field is truthy, in
registry order (sentinel strings included). -/
def running (reg : Registry) : List Job :=
  reg.filterMap (fun p =>
    p.2.job.bind (fun j => if j.truthy then some j else none))

/-- `get_hackrf_job`: `None` without a hackrf, else the job of slot 0. -/
def get_hackrf_job (have_hackrf : Bool) (reg : Registry) : Option Job :=
  if have_hackrf then (updGet reg HACKRF_DEVNUM).bind (fun d => d.job)
  else none

/-- The heartbeat's `running` list (`ConnectorWorker.run`): every job from
`running()` that is `!=` the hackrf job. -/
def heartbeat_running (have_hackrf : Bool) (reg : Registry) : List Job :=
  (running reg).filter (fun j => !(some j == get_hackrf_job have_hackrf reg))

/-! ## Python string builtins

The sources use `int(...)` and `str.split(None)`; both are modelled
structurally over the character list of the string. -/

/-- Whitespace for Python's default `split` / `int` stripping. -/
def isSpaceC (c : Char) : Bool :=
  c = ' ' || c = '\t' || c = '\n' || c = '\r'

/-- Accumulate a decimal digit run; `none` on a non-digit. -/
def digitsVal : List Char → Nat → Option Nat
  | [], acc => some acc
  | c :: rest, acc =>
      if c.isDigit then digitsVal rest (acc * 10 + (c.toNat - 48))
      else none

/-- Python `int(s)`: optional surrounding whitespace, optional sign,
then a non-empty digit run; anything else raises `ValueError`
(modelled as `none`). -/
def pyInt (s : String) : Option Int :=
  let cs := s.data.dropWhile isSpaceC
  let cs := (cs.reverse.dropWhile isSpaceC).reverse
  match cs with
  | [] => none
  | '-' :: rest =>
      if rest.isEmpty then none
      else (digitsVal rest 0).map (fun n => -(n : Int))
  | '+' :: rest =>
      if rest.isEmpty then none
      else (digitsVal rest 0).map (fun n => (n : Int))
  | _ => (digitsVal cs 0).map (fun n => (n : Int))

/-- `s.split(None)` worker: split on whitespace runs, dropping empties;
`acc` holds the current word reversed. -/
def splitWsGo : List Char → List Char → List String
  | [], acc => if acc.isEmpty then [] else [String.mk acc.reverse]
  | c :: rest, acc =>
      if isSpaceC c then
        if acc.isEmpty then splitWsGo rest []
        else String.mk acc.reverse :: splitWsGo rest []
      else splitWsGo rest (c :: acc)

/-! ## Kernel command fragments (`gammarf.py`) -/

/-- `int(args)` on an optional argument string: `TypeError` on `None`,
`ValueError` on a non-numeric string, both caught by the callers. -/
def parseIntArg (args : Option String) : Option Int :=
  args.bind pyInt

/-- The tail of `cmd_run` once the chosen device's type is `'hackrf'`:
the *caller* swaps in `next_virtualdev()` and occupies the letter slot
(only when the module's own `run` succeeded, modelled by `runOk`). -/
def cmd_run_hackrf (reg : Registry) (module : String)
    (cmdline : Option String) (runOk : Bool) (now : String) : Registry :=
  match next_virtualdev reg with
  | none => reg
  | some c =>
      if runOk then
        match occupy reg (.letter c) module cmdline false now with
        | .ok (_, reg') => reg'
        | .error _ => reg
      else reg

/-- `cmd_reserve`, returning the console messages it prints and the
resulting registry.  Note the hackrf guard prints `invalid device: 0`
but does **not** return. -/
def cmd_reserve (have_hackrf : Bool) (reg : Registry) (args : Option String) :
    List String × Registry :=
  match parseIntArg args with
  | none => (["command takes a device number as its argument"], reg)
  | some n =>
      let devid := DevId.num n
      let msgs :=
        if have_hackrf && ishackrf have_hackrf devid then
          ["invalid device: 0"]
        else []
      if !isdev reg devid then
        (msgs ++ ["not a valid device number: " ++ devid.str], reg)
      else if occupied have_hackrf reg devid then
        (msgs ++ ["device occupied: " ++ devid.str], reg)
      else if reservedQ have_hackrf reg devid then
        (msgs ++ ["device " ++ devid.str ++ " already reserved"], reg)
      else (msgs, reserve reg devid)

/-! ## Command registration (`GrfState.__init__`)

`commands` is a Python dict whose keys are command-name *strings*; the
duplicate guard however tests `if cmd in commands` where `cmd` is the
whole `(name, handler)` *tuple*.  A key of a dict can be either value,
so keys are modelled as a sum. -/

/-- A Python value usable as a key of `commands`: a name string or a
`(name, handler)` tuple (handlers abstracted to numbers). -/
inductive PyKey where
  | str (s : String)
  | pair (s : String) (h : Nat)
deriving DecidableEq, Repr

/-- One module's `commands()` list folded into the `commands` dict:
`for cmd in modcmds: if cmd in commands: raise ...; commands[cmd[0]] = cmd[1]`. -/
def register_cmds (commands : List (PyKey × Nat)) :
    List (String × Nat) → Except String (List (PyKey × Nat))
  | [] => .ok commands
  | cmd :: rest =>
      if commands.any (fun p => p.1 == PyKey.pair cmd.1 cmd.2) then
        .error "attempted to register command twice"
      else
        register_cmds (updSet commands (.str cmd.1) cmd.2) rest

/-! ## Pseudo-device startup (`pseudo_startup_tasks`) -/

/-- `cmdline.split(None, 1)` followed by the `ValueError` fallback
`module = cmdline.strip()`: leading blanks dropped, first word split
off, remainder (if non-blank) kept. -/
def split1 (s : String) : String × Option String :=
  let cs := s.data.dropWhile (fun c => c = ' ')
  let w := cs.takeWhile (fun c => c ≠ ' ')
  let rest := (cs.dropWhile (fun c => c ≠ ' ')).dropWhile (fun c => c = ' ')
  (String.mk w, if rest.isEmpty then none else some (String.mk rest))

/-- One iteration of the `while True` loop of `pseudo_startup_tasks`,
reduced to the evolution of `devid`: `none` models the `break` on a
missing `startup_<devid>` key, `some d` the next value of `devid`.  The
`continue` taken when the named module is a system module or not loaded
skips the `devid += 1` at the bottom of the loop body. -/
def pseudo_step (cfg : Nat → Option String)
    (system_mods loadedmods : List String) (devid : Nat) : Option Nat :=
  match cfg devid with
  | none => none
  | some cmdline =>
      let module := (split1 cmdline).1
      if module ∈ system_mods || module ∉ loadedmods then
        some devid
      else
        some (devid + 1)

/-! ## Connector (`gammarf_connector.py`)

Payload values are modelled as character lists; `str(uuid4())` and
`md5(...).hexdigest()` are explicit parameters (a canonical uuid4 string
has 36 characters, an md5 hex digest 32). -/

/-- A Python string as a character list. -/
abbrev PStr := List Char

/-- A JSON payload under construction: a dict from field names. -/
abbrev JDict := List (String × PStr)

/-- The shared enrichment performed by both `senddat` and `sendcmd`:
`stationid`, the location fields, then `rand = str(uuid4())[:8]` and
`sign = md5(station_pass + rand).hexdigest()[:12]`. -/
def enrich_auth (stationid : PStr) (loc : JDict) (station_pass : PStr)
    (uuid : PStr) (md5hex : PStr → PStr) (data : JDict) : JDict :=
  let d1 := updSet data "stationid" stationid
  let d2 := loc.foldl (fun d p => updSet d p.1 p.2) d1
  let rand := uuid.take 8
  let d3 := updSet d2 "rand" rand
  let sign := (md5hex (station_pass ++ rand)).take 12
  updSet d3 "sign" sign

/-- `senddat`: drops the payload when not connected, otherwise enriches
and pushes it (the data channel's message content). -/
def senddat_msg (connected : Bool) (stationid : PStr) (loc : JDict)
    (station_pass : PStr) (uuid : PStr) (md5hex : PStr → PStr)
    (data : JDict) : Option JDict :=
  if !connected then none
  else some (enrich_auth stationid loc station_pass uuid md5hex data)

/-- `sendcmd`'s outbound message: refused up front when not connected
and the request is not a heartbeat (`request != REQ_HEARTBEAT = 0`),
otherwise enriched exactly as on the data channel. -/
def sendcmd_msg (connected : Bool) (request : Nat) (stationid : PStr)
    (loc : JDict) (station_pass : PStr) (uuid : PStr)
    (md5hex : PStr → PStr) (data : JDict) : Option JDict :=
  if !connected && request != 0 then none
  else some (enrich_auth stationid loc station_pass uuid md5hex data)

/-- `s.split(None)`: split on whitespace runs, no empty tokens. -/
def splitWs (s : String) : List String :=
  splitWsGo s.data []

/-- `l[0::2]`: every other element starting at index 0. -/
def everyOther {α : Type} : List α → List α
  | [] => []
  | [a] => [a]
  | a :: _ :: rest => a :: everyOther rest

/-- `zip(interesting[0::2], interesting[1::2])`. -/
def zipPairs {α : Type} (l : List α) : List (α × α) :=
  (everyOther l).zip (everyOther l.tail)

/-- `[(int(freq), name) for ...]`: `int()` raises `ValueError` on a
malformed frequency token. -/
def parsePairs : List (String × String) → Except PyErr (List (Int × String))
  | [] => .ok []
  | (f, n) :: rest =>
      match pyInt f with
      | none => .error .valueError
      | some i => (parsePairs rest).map (fun l => (i, n) :: l)

/-- `sorted(out, key=lambda tup: tup[0])`: Python's stable ascending
sort by the frequency component. -/
def pySortedByFreq (l : List (Int × String)) : List (Int × String) :=
  l.mergeSort (fun a b => a.1 ≤ b.1)

/-- `interesting_raw` on a successful (`reply == 'ok'`) response,
starting from the server's `freqs` string. -/
def interesting_raw (freqs : String) : Except PyErr (List (Int × String)) :=
  (parsePairs (zipPairs (splitWs freqs))).map pySortedByFreq

/-! ## Remote-task dispatcher (`gammarf_remotetask.py`)

`RemoteTaskDispatcher.run` is interpreted over streams of inputs: the
successive `stoprequest.isSet()` readings, the successive `rtask_get`
replies, the successive `jobmodule.run` results and the successive
`rtask_askcancel` replies.  Wall-clock time advances by `LOOP_SLEEP = 5`
seconds per inner-loop sleep, so `time.time() - started` is the elapsed
counter.  The observable actions are recorded as an event trace. -/

/-- A well-formed `rtask_get` reply (§4.4 of the spec): `ok` carries the
task duration in seconds. -/
inductive GetReply where
  | ok (duration : Nat)
  | err
  | nothing
deriving DecidableEq, Repr

/-- A well-formed `rtask_askcancel` reply. -/
inductive CancelReply where
  | cancel
  | nocancel
  | cerror
deriving DecidableEq, Repr

/-- Observable dispatcher actions. -/
inductive Ev where
  | poll
  | sleep5
  | jobStart
  | jobStop
  | askcancel
  | freedev
deriving DecidableEq, Repr

/-- The dispatcher's environment: input streams consumed one reading at
a time. -/
structure DIn where
  stopq : Nat → Bool
  getr : Nat → GetReply
  runOk : Nat → Bool
  cr : Nat → CancelReply

/-- The inner duration/cancellation loop of `RemoteTaskDispatcher.run`,
from a given elapsed time; returns its events plus the updated stream
cursors (stop readings, cancel polls). -/
def innerLoop (I : DIn) (duration : Nat) (elapsed s c : Nat) :
    List Ev × Nat × Nat :=
  if duration ≤ elapsed then ([Ev.jobStop], s, c)
  else if I.stopq s then ([Ev.jobStop], s + 1, c)
  else
    match I.cr c with
    | .cancel => ([Ev.askcancel, Ev.jobStop], s + 1, c + 1)
    | .nocancel =>
        let r := innerLoop I duration (elapsed + 5) (s + 1) (c + 1)
        (Ev.askcancel :: Ev.sleep5 :: r.1, r.2)
    | .cerror =>
        let r := innerLoop I duration (elapsed + 5) (s + 1) (c + 1)
        (Ev.askcancel :: Ev.sleep5 :: r.1, r.2)
termination_by duration - elapsed
decreasing_by
  all_goals omega

/-- The outer `while not self.stoprequest.isSet()` loop, driven by fuel
(one unit per outer iteration); `none` when the fuel runs out with the
loop still going, `some trace` when the loop exits and `freedev` runs.
Cursors: `s` stop readings, `g` get polls, `r` run attempts, `c` cancel
polls. -/
def dispatchRun (I : DIn) : Nat → Nat → Nat → Nat → Nat → Option (List Ev)
  | 0, _, _, _, _ => none
  | fuel + 1, s, g, r, c =>
      if I.stopq s then some [Ev.freedev]
      else
        match I.getr g with
        | .err =>
            (dispatchRun I fuel (s + 1) (g + 1) r c).map
              (fun tr => Ev.poll :: Ev.sleep5 :: tr)
        | .nothing =>
            (dispatchRun I fuel (s + 1) (g + 1) r c).map
              (fun tr => Ev.poll :: Ev.sleep5 :: tr)
        | .ok duration =>
            if I.runOk r then
              let inner := innerLoop I duration 0 (s + 1) c
              (dispatchRun I fuel inner.2.1 (g + 1) (r + 1) inner.2.2).map
                (fun tr => Ev.poll :: Ev.jobStart :: (inner.1 ++ tr))
            else
              (dispatchRun I fuel (s + 1) (g + 1) (r + 1) c).map
                (fun tr => Ev.poll :: tr)

/-! ## Concrete fixtures -/

/-- The hackrf registry slot as `GrfModuleDevices.__init__` builds it:
devnum 0, carrying the `"Virtual Provider"` sentinel job. -/
def hackrfProviderDev : Device :=
  { devtype := "hackrf", devid := some (.num 0), name := some "0 HackRF",
    job := some (.text "Virtual Provider") }

/-- A registry with just the wide-band device. -/
def regHackrfOnly : Registry := [(.num 0, hackrfProviderDev)]

/-- An rtlsdr slot with no job. -/
def rtlFreeDev : Device :=
  { devtype := "rtlsdr", devid := some (.num 1), name := some "1 RTLSDR x",
    serial := some "00000001" }

/-- A registry with the wide-band device and one free rtlsdr stick. -/
def regTwoDevs : Registry := [(.num 0, hackrfProviderDev), (.num 1, rtlFreeDev)]

/-! ## Claims -/

theorem updGet_cmd_run_hackrf_of_ne (reg : Registry) (module : String)
    (cmdline : Option String) (now : String) (c : Char)
    (hnext : next_virtualdev reg = some c) (d : DevId)
    (hd : d ≠ .letter c) :
    updGet (cmd_run_hackrf reg module cmdline true now) d = updGet reg d := by
  unfold cmd_run_hackrf
  rw [hnext]
  simp only [occupy]
  exact updGet_updSet_ne reg (.letter c) d _ (fun h => hd h.symm)

/-- **C1** (amended).  A direct `occupy` on the wide-band device's id
refuses: the slot's sentinel job is truthy, so the occupied-check fails
the call and the registry is untouched.  The silent swap onto the next
free lowercase Virtual slot is performed by the *caller* (`cmd_run`),
which obtains the letter from `next_virtualdev()` and occupies it: the
job lands on the fresh virtual slot and the wide-band record keeps its
sentinel, unchanged. -/
theorem occupy_wideband_refuses_caller_allocates (reg : Registry)
    (hdev : Device) (module : String) (cmdline : Option String)
    (now : String) (c : Char)
    (h0 : updGet reg HACKRF_DEVNUM = some hdev)
    (hjob : jobTruthy hdev.job = true)
    (hnext : next_virtualdev reg = some c) :
    occupy reg HACKRF_DEVNUM module cmdline false now = .ok (none, reg) ∧
    updGet (cmd_run_hackrf reg module cmdline true now) (.letter c) =
      some { devtype := "virtual",
             name := some ((DevId.letter c).str ++ " Virtual"),
             job := some (.task module cmdline now) } ∧
    updGet (cmd_run_hackrf reg module cmdline true now) HACKRF_DEVNUM =
      some hdev := by
  refine ⟨?_, ?_, ?_⟩
  · simp only [occupy, HACKRF_DEVNUM] at h0 ⊢
    simp [h0, hjob]
  · unfold cmd_run_hackrf
    rw [hnext]
    simp only [occupy]
    exact updGet_updSet_self reg (.letter c) _
  · rw [updGet_cmd_run_hackrf_of_ne reg module cmdline now c hnext
      HACKRF_DEVNUM (by simp [HACKRF_DEVNUM])]
    exact h0

/-- Witness for `occupy_wideband_refuses_caller_allocates` on the
concrete single-hackrf registry. -/
theorem occupy_wideband_refuses_caller_allocates_witness :
    occupy regHackrfOnly HACKRF_DEVNUM "scanner" none false "t" =
      .ok (none, regHackrfOnly) ∧
    updGet (cmd_run_hackrf regHackrfOnly "scanner" none true "t")
        (.letter 'a') =
      some { devtype := "virtual",
             name := some ((DevId.letter 'a').str ++ " Virtual"),
             job := some (.task "scanner" none "t") } ∧
    updGet (cmd_run_hackrf regHackrfOnly "scanner" none true "t")
        HACKRF_DEVNUM =
      some hackrfProviderDev :=
  occupy_wideband_refuses_caller_allocates regHackrfOnly hackrfProviderDev
    "scanner" none "t" 'a' rfl rfl rfl

/-- **C1** counterexample to the claim as stated: on the wide-band id,
`occupy` returns `None` (no success flag, no fresh virtual id) and
leaves the registry exactly as it was — no Virtual slot is allocated. -/
theorem occupy_wideband_counterexample :
    occupy regHackrfOnly HACKRF_DEVNUM "scanner" none false "t" =
      .ok (none, regHackrfOnly) ∧
    isdev regHackrfOnly (.letter 'a') = false :=
  ⟨rfl, rfl⟩

/-- **C10**.  `occupy` on a letter id, and any pseudo occupation on a
numeric id, unconditionally succeed: a fresh record is installed under
the id (replacing whatever was there, reserved or occupied or not), and
the success flag is returned.  A refusal (`None`) can only come out of
the remaining branch: a numeric id with `pseudo=False` whose existing
record has a truthy job or is unusable, and it leaves the registry
unchanged. -/
theorem occupy_virtual_pseudo_unconditional (reg : Registry) (m : String)
    (a : Option String) (now : String) :
    (∀ c p, occupy reg (.letter c) m a p now =
        .ok (some true,
          updSet reg (.letter c)
            { devtype := "virtual",
              name := some ((DevId.letter c).str ++ " Virtual"),
              job := some (.task m a now) }) ∧
      updGet ((occupy reg (.letter c) m a p now).toOption.map
          Prod.snd |>.getD reg) (.letter c) =
        some { devtype := "virtual",
               name := some ((DevId.letter c).str ++ " Virtual"),
               job := some (.task m a now) }) ∧
    (∀ n : Int, occupy reg (.num n) m a true now =
        .ok (some true,
          updSet reg (.num n)
            { devtype := "pseudo", devid := some (.num n),
              name := some ((DevId.num n).str ++ " Pseudo device"),
              job := some (.task m a now) }) ∧
      updGet ((occupy reg (.num n) m a true now).toOption.map
          Prod.snd |>.getD reg) (.num n) =
        some { devtype := "pseudo", devid := some (.num n),
               name := some ((DevId.num n).str ++ " Pseudo device"),
               job := some (.task m a now) }) ∧
    (∀ d p res, occupy reg d m a p now = .ok (none, res) →
      res = reg ∧ p = false ∧
      ∃ nn dev, d = .num nn ∧ updGet reg d = some dev ∧
        (jobTruthy dev.job = true ∨ dev.usable = false)) := by
  refine ⟨?_, ?_, ?_⟩
  · intro c p
    refine ⟨rfl, ?_⟩
    simp only [occupy, Except.toOption, Option.map, Option.getD]
    exact updGet_updSet_self reg (.letter c) _
  · intro n
    refine ⟨rfl, ?_⟩
    simp only [occupy, if_pos, Except.toOption, Option.map, Option.getD]
    exact updGet_updSet_self reg (.num n) _
  · intro d p res h
    match d with
    | .letter c => simp [occupy] at h
    | .num nn =>
        by_cases hp : p
        · simp [occupy, hp] at h
        · cases hget : updGet reg (DevId.num nn) with
          | none => simp [occupy, hp, hget] at h
          | some dev =>
              by_cases href : (jobTruthy dev.job || !dev.usable) = true
              · simp only [occupy, hp, if_neg, Bool.false_eq_true,
                  not_false_eq_true, hget, href, if_true,
                  Except.ok.injEq, Prod.mk.injEq, true_and] at h
                refine ⟨h.symm, by simpa using hp, nn, dev, rfl, rfl, ?_⟩
                rcases (Bool.or_eq_true _ _).mp href with h1 | h1
                · exact Or.inl h1
                · exact Or.inr (by simpa using h1)
              · simp [occupy, hp, hget, href] at h

/-- Witness for `occupy_virtual_pseudo_unconditional`: the refusal
branch hit on the singleton hackrf registry (sentinel job set), and the
unconditional letter/pseudo occupations on the same registry. -/
theorem occupy_virtual_pseudo_unconditional_witness :
    regHackrfOnly = regHackrfOnly ∧ (false = false) ∧
    ∃ nn dev, HACKRF_DEVNUM = DevId.num nn ∧
      updGet regHackrfOnly HACKRF_DEVNUM = some dev ∧
      (jobTruthy dev.job = true ∨ dev.usable = false) :=
  (occupy_virtual_pseudo_unconditional regHackrfOnly "scanner" none "t").2.2
    HACKRF_DEVNUM false regHackrfOnly rfl

/-- **C3** (amended).  `running()` returns exactly the truthy `job`
values of the registry's devices — the wide-band sentinel *included*
(and the `"*** Reserved"` / `"*** Out of commission"` sentinels too);
the exclusion of the wide-band sentinel is performed downstream by the
Connector's heartbeat, which filters out every entry equal to
`get_hackrf_job()`. -/
theorem running_includes_sentinel_heartbeat_filters (have_hackrf : Bool)
    (reg : Registry) :
    (∀ j, j ∈ running reg ↔
        ∃ p ∈ reg, p.2.job = some j ∧ j.truthy = true) ∧
    (∀ hj, get_hackrf_job have_hackrf reg = some hj →
        hj ∉ heartbeat_running have_hackrf reg) := by
  constructor
  · intro j
    simp only [running, List.mem_filterMap]
    constructor
    · rintro ⟨p, hp, hf⟩
      refine ⟨p, hp, ?_⟩
      cases hjob : p.2.job with
      | none => rw [hjob] at hf; exact absurd hf (by simp)
      | some j' =>
          rw [hjob] at hf
          simp only [Option.some_bind] at hf
          by_cases ht : j'.truthy
          · rw [if_pos ht] at hf
            cases hf
            exact ⟨rfl, ht⟩
          · rw [if_neg ht] at hf
            exact absurd hf (by simp)
    · rintro ⟨p, hp, hjob, ht⟩
      refine ⟨p, hp, ?_⟩
      rw [hjob]
      simp only [Option.some_bind]
      rw [if_pos ht]
  · intro hj hhj
    simp [heartbeat_running, List.mem_filter, hhj]

/-- Witness for `running_includes_sentinel_heartbeat_filters`: on the
singleton hackrf registry the sentinel is in `running()` yet filtered
from the heartbeat list. -/
theorem running_includes_sentinel_heartbeat_filters_witness :
    Job.text "Virtual Provider" ∈ running regHackrfOnly ∧
    Job.text "Virtual Provider" ∉ heartbeat_running true regHackrfOnly :=
  ⟨((running_includes_sentinel_heartbeat_filters true regHackrfOnly).1
      (Job.text "Virtual Provider")).mpr
    ⟨(HACKRF_DEVNUM, hackrfProviderDev),
      by simp [regHackrfOnly, HACKRF_DEVNUM], rfl, rfl⟩,
   (running_includes_sentinel_heartbeat_filters true regHackrfOnly).2
      (Job.text "Virtual Provider") rfl⟩

/-- **C3** counterexample to the claim as stated: the wide-band slot's
sentinel job *is* among the entries returned by `running()`. -/
theorem running_sentinel_counterexample :
    get_hackrf_job true regHackrfOnly = some (Job.text "Virtual Provider") ∧
    Job.text "Virtual Provider" ∈ running regHackrfOnly :=
  ⟨rfl, by decide⟩

/-- **C5** (amended).  On ids *present* in the registry every refusal
path of the registry operations returns a flag or null marker without
raising, `get_devtype` on non-integer (virtual-letter) ids never raises,
and `reserve` is total; but `occupy` (non-pseudo), `freedev`,
`unreserve`, `get_devtype` and the per-kind getters raise `KeyError`
when handed an integer id that is not in the registry. -/
theorem refusal_paths_no_raise_on_known_ids (reg : Registry)
    (devid : DevId) (dev : Device) (h : updGet reg devid = some dev) :
    (∃ r, unreserve reg devid = .ok r) ∧
    (∃ r, freedev reg devid = .ok r) ∧
    (∃ t, get_devtype reg devid = .ok t) ∧
    (∃ g, get_rtlsdr_gain reg devid = .ok g) ∧
    (∀ m a p now, ∃ res, occupy reg devid m a p now = .ok res) ∧
    (∀ c, get_devtype reg (.letter c) = .ok "virtual") := by
  refine ⟨?_, ?_, ?_, ?_, ?_, fun c => rfl⟩
  · simp only [unreserve, h]
    exact ⟨_, rfl⟩
  · simp only [freedev, h]
    exact ⟨_, rfl⟩
  · match devid with
    | .letter c => exact ⟨"virtual", rfl⟩
    | .num n =>
        refine ⟨dev.devtype, ?_⟩
        simp only [get_devtype, h]
  · simp only [get_rtlsdr_gain, h]
    exact ⟨_, rfl⟩
  · intro m a p now
    match devid with
    | .letter c => exact ⟨_, rfl⟩
    | .num n =>
        by_cases hp : p
        · simp only [occupy, hp, if_true]
          exact ⟨_, rfl⟩
        · by_cases href : (jobTruthy dev.job || !dev.usable) = true
          · exact ⟨(none, reg), by simp [occupy, hp, h, href]⟩
          · simp only [occupy, hp, Bool.false_eq_true, if_false, h, href]
            exact ⟨_, rfl⟩

/-- Witness for `refusal_paths_no_raise_on_known_ids` on the registry
with a hackrf and one rtlsdr stick. -/
theorem refusal_paths_no_raise_on_known_ids_witness :
    (∃ r, unreserve regTwoDevs (.num 1) = .ok r) ∧
    (∃ r, freedev regTwoDevs (.num 1) = .ok r) ∧
    (∃ t, get_devtype regTwoDevs (.num 1) = .ok t) ∧
    (∃ g, get_rtlsdr_gain regTwoDevs (.num 1) = .ok g) ∧
    (∀ m a p now, ∃ res, occupy regTwoDevs (.num 1) m a p now = .ok res) ∧
    (∀ c, get_devtype regTwoDevs (.letter c) = .ok "virtual") :=
  refusal_paths_no_raise_on_known_ids regTwoDevs (.num 1) rtlFreeDev rfl

/-- **C5** counterexample to the claim as stated: on an id absent from
the registry, `unreserve`, `freedev`, `get_devtype`, the per-kind getter
and non-pseudo `occupy` all raise `KeyError` instead of returning a
flag. -/
theorem refusal_paths_raise_counterexample :
    unreserve ([] : Registry) (.num 5) = .error .keyError ∧
    freedev ([] : Registry) (.num 5) = .error .keyError ∧
    get_devtype ([] : Registry) (.num 5) = .error .keyError ∧
    get_rtlsdr_gain ([] : Registry) (.num 5) = .error .keyError ∧
    occupy ([] : Registry) (.num 5) "scanner" none false "t" =
      .error .keyError :=
  ⟨rfl, rfl, rfl, rfl, rfl⟩

/-- **C7** (code bug).  `cmd_reserve 0` on a station with the wide-band
device prints `invalid device: 0` — but the guard is missing a `return`,
so execution falls through; `occupied`/`reserved` both special-case the
hackrf to `False`, and `reserve(0)` runs: the wide-band record ends up
`reserved=True` with its sentinel job overwritten by `*** Reserved`,
contrary to both the printed message and the spec. -/
theorem cmd_reserve_wideband_reserves_anyway :
    cmd_reserve true regHackrfOnly (some "0") =
      (["invalid device: 0"],
       [(HACKRF_DEVNUM,
         { hackrfProviderDev with
             reserved := true, job := some (.text "*** Reserved") })]) ∧
    (cmd_reserve true regHackrfOnly (some "0")).2 ≠ regHackrfOnly :=
  ⟨rfl, by decide⟩

theorem enrich_auth_fields (stationid : PStr) (loc : JDict)
    (station_pass uuid : PStr) (md5hex : PStr → PStr) (data : JDict)
    (huuid : uuid.length = 36) (hmd5 : ∀ s, (md5hex s).length = 32) :
    ∃ rand sign,
      updGet (enrich_auth stationid loc station_pass uuid md5hex data)
          "rand" = some rand ∧
      rand.length = 8 ∧
      updGet (enrich_auth stationid loc station_pass uuid md5hex data)
          "sign" = some sign ∧
      sign.length = 12 ∧
      sign = (md5hex (station_pass ++ rand)).take 12 := by
  refine ⟨uuid.take 8, (md5hex (station_pass ++ uuid.take 8)).take 12,
    ?_, ?_, ?_, ?_, rfl⟩
  · unfold enrich_auth
    rw [updGet_updSet_ne _ "sign" "rand" _ (by decide)]
    exact updGet_updSet_self _ "rand" _
  · rw [List.length_take, huuid]; rfl
  · unfold enrich_auth
    exact updGet_updSet_self _ "sign" _
  · rw [List.length_take, hmd5]; rfl

/-- **C2**.  Every outbound JSON message — on the data channel
(`senddat`) and on the command channel (`sendcmd`) alike — carries a
`rand` field of length 8 and a `sign` field of length 12 equal to the
first 12 hex characters of `md5(station_pass ++ rand)` (given a
canonical 36-character uuid string and a 32-character md5 hexdigest). -/
theorem outbound_messages_signed (connected : Bool) (request : Nat)
    (stationid : PStr) (loc : JDict) (station_pass uuid : PStr)
    (md5hex : PStr → PStr) (data : JDict)
    (huuid : uuid.length = 36) (hmd5 : ∀ s, (md5hex s).length = 32) :
    (∀ m, senddat_msg connected stationid loc station_pass uuid md5hex
        data = some m →
      ∃ rand sign, updGet m "rand" = some rand ∧ rand.length = 8 ∧
        updGet m "sign" = some sign ∧ sign.length = 12 ∧
        sign = (md5hex (station_pass ++ rand)).take 12) ∧
    (∀ m, sendcmd_msg connected request stationid loc station_pass uuid
        md5hex data = some m →
      ∃ rand sign, updGet m "rand" = some rand ∧ rand.length = 8 ∧
        updGet m "sign" = some sign ∧ sign.length = 12 ∧
        sign = (md5hex (station_pass ++ rand)).take 12) := by
  constructor
  · intro m hm
    unfold senddat_msg at hm
    by_cases hc : connected
    · rw [if_neg (by simp [hc])] at hm
      cases hm
      exact enrich_auth_fields stationid loc station_pass uuid md5hex data
        huuid hmd5
    · rw [if_pos (by simp [hc])] at hm
      exact absurd hm (by simp)
  · intro m hm
    unfold sendcmd_msg at hm
    by_cases hc : (!connected && request != 0) = true
    · rw [if_pos hc] at hm
      exact absurd hm (by simp)
    · rw [if_neg hc] at hm
      cases hm
      exact enrich_auth_fields stationid loc station_pass uuid md5hex data
        huuid hmd5

/-- Witness for `outbound_messages_signed` with a concrete 36-char uuid
string and a stand-in 32-char digest function. -/
theorem outbound_messages_signed_witness :
    (∀ m, senddat_msg true ['s'] [] ['p', 'w'] (List.replicate 36 'u')
        (fun _ => List.replicate 32 'h') [] = some m →
      ∃ rand sign, updGet m "rand" = some rand ∧ rand.length = 8 ∧
        updGet m "sign" = some sign ∧ sign.length = 12 ∧
        sign = ((fun _ : PStr => List.replicate 32 'h')
          (['p', 'w'] ++ rand)).take 12) ∧
    (∀ m, sendcmd_msg true 0 ['s'] [] ['p', 'w'] (List.replicate 36 'u')
        (fun _ => List.replicate 32 'h') [] = some m →
      ∃ rand sign, updGet m "rand" = some rand ∧ rand.length = 8 ∧
        updGet m "sign" = some sign ∧ sign.length = 12 ∧
        sign = ((fun _ : PStr => List.replicate 32 'h')
          (['p', 'w'] ++ rand)).take 12) :=
  outbound_messages_signed true 0 ['s'] [] ['p', 'w']
    (List.replicate 36 'u') (fun _ => List.replicate 32 'h') []
    (by simp) (fun s => by simp)

/-- **C9** (amended).  Every successful `interesting_raw` result is
sorted ascending by frequency — *weakly*: when the server's `freqs`
string repeats a frequency the duplicates sit adjacently (Python's
`sorted` is stable and uses `≤` on the key), so strict ascent holds only
for duplicate-free replies. -/
theorem interesting_raw_sorted (freqs : String)
    (out : List (Int × String)) (h : interesting_raw freqs = .ok out) :
    List.Pairwise (fun a b : Int × String => a.1 ≤ b.1) out := by
  unfold interesting_raw at h
  cases hp : parsePairs (zipPairs (splitWs freqs)) with
  | error e => rw [hp] at h; exact absurd h (by simp [Except.map])
  | ok l =>
      rw [hp] at h
      simp only [Except.map, Except.ok.injEq] at h
      subst h
      have hs := @List.sorted_mergeSort (Int × String)
        (fun a b => decide (a.1 ≤ b.1))
        (fun a b c hab hbc => by
          simp only [decide_eq_true_eq] at hab hbc ⊢
          exact le_trans hab hbc)
        (fun a b => by
          simp only [Bool.or_eq_true, decide_eq_true_eq]
          exact le_total a.1 b.1) l
      exact hs.imp (fun hab => by simpa using hab)

/-- Witness for `interesting_raw_sorted` on a concrete reply. -/
theorem interesting_raw_sorted_witness :
    List.Pairwise (fun a b : Int × String => a.1 ≤ b.1)
      [((100 : Int), "a"), (433920000, "ism")] :=
  interesting_raw_sorted "100 a 433920000 ism"
    [((100 : Int), "a"), (433920000, "ism")]
    (by unfold interesting_raw
        have hp : parsePairs (zipPairs (splitWs "100 a 433920000 ism")) =
            .ok [((100 : Int), "a"), (433920000, "ism")] := rfl
        rw [hp]
        simp only [Except.map, Except.ok.injEq]
        exact List.mergeSort_of_sorted (by decide))

/-- **C9** counterexample to strictness: a reply repeating frequency 100
parses and sorts to `[(100, "a"), (100, "b")]`, which is not strictly
ascending. -/
theorem interesting_raw_strict_counterexample :
    interesting_raw "100 a 100 b" = .ok [((100 : Int), "a"), (100, "b")] ∧
    ¬ List.Pairwise (fun a b : Int × String => a.1 < b.1)
        [((100 : Int), "a"), (100, "b")] := by
  constructor
  · unfold interesting_raw
    have hp : parsePairs (zipPairs (splitWs "100 a 100 b")) =
        .ok [((100 : Int), "a"), (100, "b")] := rfl
    rw [hp]
    simp only [Except.map, Except.ok.injEq]
    exact List.mergeSort_of_sorted (by decide)
  · decide

theorem updSet_str_keys (cmds : List (PyKey × Nat)) (s : String) (v : Nat)
    (h : ∀ p ∈ cmds, ∃ t, p.1 = PyKey.str t) :
    ∀ p ∈ updSet cmds (PyKey.str s) v, ∃ t, p.1 = PyKey.str t := by
  induction cmds with
  | nil =>
      intro p hp
      simp [updSet] at hp
      exact ⟨s, by rw [hp]⟩
  | cons q rest ih =>
      intro p hp
      by_cases hq : q.1 = PyKey.str s
      · rw [updSet, if_pos (by simp [hq])] at hp
        rcases List.mem_cons.mp hp with h1 | h1
        · exact ⟨s, by rw [h1]⟩
        · exact h p (List.mem_cons_of_mem q h1)
      · rw [updSet, if_neg (by simp [hq])] at hp
        rcases List.mem_cons.mp hp with h1 | h1
        · exact h q (by simp) |>.imp (fun t ht => by rw [h1]; exact ht)
        · exact ih (fun r hr => h r (List.mem_cons_of_mem q hr)) p h1

/-- **C4** (code bug).  The duplicate-command guard tests
`if cmd in commands` with `cmd` the whole `(name, handler)` tuple while
the dict's keys are the name strings, so it can never fire: whenever
every existing key is a string, registration succeeds for *any* command
list, and a repeated name silently overwrites the earlier handler
(witnessed concretely by registering `devs` twice). -/
theorem duplicate_command_not_refused :
    register_cmds [] [("devs", 1), ("devs", 2)] =
      .ok [(.str "devs", 2)] ∧
    (∀ (cmds : List (PyKey × Nat)) (mods : List (String × Nat)),
      (∀ p ∈ cmds, ∃ s, p.1 = PyKey.str s) →
      ∃ res, register_cmds cmds mods = .ok res) := by
  refine ⟨rfl, ?_⟩
  intro cmds mods
  induction mods generalizing cmds with
  | nil => exact fun _ => ⟨cmds, rfl⟩
  | cons cmd rest ih =>
      intro h
      have hguard : cmds.any
          (fun p => p.1 == PyKey.pair cmd.1 cmd.2) = false := by
        rw [List.any_eq_false]
        intro p hp
        rcases h p hp with ⟨s, hs⟩
        simp [hs]
      rw [register_cmds, hguard]
      simp only [Bool.false_eq_true, if_false]
      exact ih (updSet cmds (.str cmd.1) cmd.2)
        (updSet_str_keys cmds cmd.1 cmd.2 h)

/-- Witness for `duplicate_command_not_refused`: the second conjunct on
a concrete pre-populated command table. -/
theorem duplicate_command_not_refused_witness :
    ∃ res, register_cmds [(PyKey.str "devs", 7)] [("devs", 9)] =
      .ok res :=
  duplicate_command_not_refused.2 [(PyKey.str "devs", 7)] [("devs", 9)]
    (fun p hp => ⟨"devs", by simp at hp; rw [hp]⟩)

/-- One step of the pseudo-startup loop iterated `k` times (the state is
`some devid`, or `none` once the loop has broken). -/
def pseudo_iter (cfg : Nat → Option String)
    (system_mods loadedmods : List String) (k : Nat) (st : Option Nat) :
    Option Nat :=
  Nat.rec st
    (fun _ acc => acc.bind (pseudo_step cfg system_mods loadedmods)) k

/-- **C6** (code bug).  The `continue` taken when `startup_9000` names a
system module (here `devices`) skips the `devid += 1` at the bottom of
the loop, so the loop re-reads the same key forever: after any number of
iterations the state is still `some 9000` — the loop neither terminates
at the first missing key nor handles each key exactly once. -/
theorem pseudo_startup_stuck_on_system_module :
    (pseudo_step (fun n => if n == 9000 then some "devices" else none)
        ["devices", "location", "spectrum", "connector"] ["scanner"]
        9000 = some 9000) ∧
    ∀ k, pseudo_iter (fun n => if n == 9000 then some "devices" else none)
        ["devices", "location", "spectrum", "connector"] ["scanner"]
        k (some 9000) = some 9000 := by
  refine ⟨rfl, ?_⟩
  intro k
  induction k with
  | zero => rfl
  | succ n ih =>
      show (pseudo_iter _ _ _ n (some 9000)).bind _ = some 9000
      rw [ih]
      rfl

/-- A concrete dispatcher environment: no tasks available, stop
requested from the third `isSet` reading on. -/
def dinFixture : DIn :=
  { stopq := fun s => decide (2 ≤ s), getr := fun _ => .nothing,
    runOk := fun _ => true, cr := fun _ => .nocancel }

/-- **C8**.  In the remote-task dispatcher loop, (i) whenever the loop
exits — after any interleaving of replies, run results and stop
requests — the very last action of the thread is `freedev` on its
device; and (ii) a `"none"` or `"error"` reply to `rtask_get` produces
exactly a poll followed by a 5-second sleep, after which the loop
continues (recursing into the next iteration). -/
theorem dispatcher_frees_and_continues (I : DIn) :
    (∀ fuel s g r c tr, dispatchRun I fuel s g r c = some tr →
        ∃ pre, tr = pre ++ [Ev.freedev]) ∧
    (∀ fuel s g r c, I.stopq s = false →
        (I.getr g = .err ∨ I.getr g = .nothing) →
        dispatchRun I (fuel + 1) s g r c =
          (dispatchRun I fuel (s + 1) (g + 1) r c).map
            (fun tr => Ev.poll :: Ev.sleep5 :: tr)) := by
  constructor
  · intro fuel
    induction fuel with
    | zero =>
        intro s g r c tr h
        exact absurd h (by simp [dispatchRun])
    | succ n ih =>
        intro s g r c tr h
        rw [dispatchRun] at h
        by_cases hstop : I.stopq s
        · rw [if_pos hstop] at h
          cases h
          exact ⟨[], rfl⟩
        · rw [if_neg hstop] at h
          cases hget : I.getr g with
          | err =>
              simp only [hget] at h
              cases hrec : dispatchRun I n (s + 1) (g + 1) r c with
              | none => simp [hrec] at h
              | some tr' =>
                  simp only [hrec, Option.map, Option.some.injEq] at h
                  rcases ih (s + 1) (g + 1) r c tr' hrec with ⟨pre, hpre⟩
                  exact ⟨Ev.poll :: Ev.sleep5 :: pre,
                    by rw [← h, hpre]; simp⟩
          | nothing =>
              simp only [hget] at h
              cases hrec : dispatchRun I n (s + 1) (g + 1) r c with
              | none => simp [hrec] at h
              | some tr' =>
                  simp only [hrec, Option.map, Option.some.injEq] at h
                  rcases ih (s + 1) (g + 1) r c tr' hrec with ⟨pre, hpre⟩
                  exact ⟨Ev.poll :: Ev.sleep5 :: pre,
                    by rw [← h, hpre]; simp⟩
          | ok duration =>
              simp only [hget] at h
              by_cases hrun : I.runOk r
              · rw [if_pos hrun] at h
                cases hrec : dispatchRun I n
                    (innerLoop I duration 0 (s + 1) c).2.1 (g + 1) (r + 1)
                    (innerLoop I duration 0 (s + 1) c).2.2 with
                | none => simp [hrec] at h
                | some tr' =>
                    simp only [hrec, Option.map, Option.some.injEq] at h
                    rcases ih _ (g + 1) (r + 1) _ tr' hrec with ⟨pre, hpre⟩
                    refine ⟨Ev.poll :: Ev.jobStart ::
                      ((innerLoop I duration 0 (s + 1) c).1 ++ pre), ?_⟩
                    rw [← h, hpre]
                    simp [List.append_assoc]
              · rw [if_neg hrun] at h
                cases hrec : dispatchRun I n (s + 1) (g + 1) (r + 1) c with
                | none => simp [hrec] at h
                | some tr' =>
                    simp only [hrec, Option.map, Option.some.injEq] at h
                    rcases ih (s + 1) (g + 1) (r + 1) c tr' hrec with
                      ⟨pre, hpre⟩
                    exact ⟨Ev.poll :: pre, by rw [← h, hpre]; simp⟩
  · intro fuel s g r c hstop hget
    rw [dispatchRun]
    rcases hget with h | h <;> simp [hstop, h]

/-- Witness for `dispatcher_frees_and_continues` on the concrete
environment: two empty polls, then the stop request; the trace ends in
`freedev`, and the first empty poll unfolds to poll-sleep-continue. -/
theorem dispatcher_frees_and_continues_witness :
    (∃ pre, [Ev.poll, Ev.sleep5, Ev.poll, Ev.sleep5, Ev.freedev] =
      pre ++ [Ev.freedev]) ∧
    dispatchRun dinFixture 3 0 0 0 0 =
      (dispatchRun dinFixture 2 1 1 0 0).map
        (fun tr => Ev.poll :: Ev.sleep5 :: tr) :=
  ⟨(dispatcher_frees_and_continues dinFixture).1 10 0 0 0 0
      [Ev.poll, Ev.sleep5, Ev.poll, Ev.sleep5, Ev.freedev] rfl,
   (dispatcher_frees_and_continues dinFixture).2 2 0 0 0 0 rfl
      (Or.inr rfl)⟩

end Gammarf
